import Mathlib

/-!
Verification of the facial-analysis pipeline of this repository
(src/services/ai_service.py and src/services/image_service.py) against its
natural-language specification.

The Python source is shallowly embedded: Python float values that can flow
through the score pipeline are modelled by the type FVal (finite rational,
signed infinity, NaN) with Python's comparison semantics; JSON documents by
the inductive type Json; Python dicts by association lists where the last
binding of a key wins (matching dict insert/overwrite semantics); raised
exceptions by Except/Option.  Numeric computation is modelled in exact
rational arithmetic.
-/

set_option maxHeartbeats 1000000
set_option maxRecDepth 100000

/- Batteries marks the Rat field operations irreducible, which blocks decide
and rfl on concrete rational computations; restore the default reducibility
locally so concrete pipeline runs can be evaluated.  Soundness is unaffected:
every proof still goes through the kernel. -/
set_option allowUnsafeReducibility true
attribute [local semireducible] Rat.mul Rat.add Rat.div Rat.sub Rat.inv Rat.neg

namespace HowAreU

/-- Python float values reachable in the score pipeline: a finite value
(modelled exactly as a rational), a signed infinity, or NaN. -/
inductive FVal where
  | fin (q : ℚ)
  | inf (pos : Bool)
  | nan
  deriving DecidableEq

/-- Python strict comparison a < b on float values (NaN compares false). -/
def pyLt : FVal → FVal → Bool
  | .fin a, .fin b => decide (a < b)
  | .fin _, .inf p => p
  | .inf p, .fin _ => !p
  | .inf p, .inf q => !p && q
  | .nan, _ => false
  | _, .nan => false

/-- Python comparison a <= b on float values (NaN compares false). -/
def pyLe : FVal → FVal → Bool
  | .fin a, .fin b => decide (a ≤ b)
  | .fin _, .inf p => p
  | .inf p, .fin _ => !p
  | .inf p, .inf q => (!p && q) || (p == q)
  | .nan, _ => false
  | _, .nan => false

/-- Embedding of Python max(0, min(10, score)) (src/services/ai_service.py
line 335).  CPython min(a, b) returns b exactly when b < a, and
max(a, b) returns b exactly when a < b, which fixes the NaN behaviour. -/
def pyClamp (v : FVal) : FVal :=
  let m := if pyLt v (.fin 10) then v else .fin 10
  if pyLt (.fin 0) m then m else .fin 0

/-- Round-half-to-even of a rational to an integer, the tie rule of Python's
round builtin. -/
def rhe (x : ℚ) : ℤ :=
  if x - ⌊x⌋ < 1 / 2 then ⌊x⌋
  else if 1 / 2 < x - ⌊x⌋ then ⌊x⌋ + 1
  else if ⌊x⌋ % 2 = 0 then ⌊x⌋ else ⌊x⌋ + 1

/-- Embedding of Python round(x, 1) on a finite value. -/
def round1 (q : ℚ) : ℚ := (rhe (q * 10) : ℚ) / 10

/-- Embedding of Python round(x, 1) on float values (round of an infinity or
NaN returns it unchanged). -/
def roundFV : FVal → FVal
  | .fin q => .fin (round1 q)
  | v => v

/-- A rational is representable with one decimal digit. -/
def oneDec (q : ℚ) : Prop := (q * 10).den = 1

instance (q : ℚ) : Decidable (oneDec q) := by
  unfold oneDec; infer_instance

/-- Python str.strip() whitespace set (ASCII part). -/
def isPyWs (c : Char) : Bool :=
  c = ' ' || c = '\t' || c = '\n' || c = '\x0d' || c = '\x0b' || c = '\x0c'

/-- Embedding of Python str.strip() on a character list. -/
def pyStripL (s : List Char) : List Char :=
  ((s.dropWhile isPyWs).reverse.dropWhile isPyWs).reverse

/-- Embedding of Python str.strip() on a string. -/
def pyStrip (s : String) : String := ⟨pyStripL s.toList⟩

/-- Embedding of Python s.replace with old a comma and new a dot
(src/services/ai_service.py line 327). -/
def commaToDot (s : List Char) : List Char :=
  s.map fun c => if c = ',' then '.' else c

def isDigitC (c : Char) : Bool := '0' ≤ c && c ≤ '9'

def digitVal (c : Char) : ℕ := c.toNat - '0'.toNat

def digitsToNat (ds : List Char) : ℕ :=
  ds.foldl (fun a c => a * 10 + digitVal c) 0

/-- Value of an optional decimal exponent suffix: e or E, an optional sign
and at least one digit, which must consume the whole remainder. -/
def parseExpSuffix (s : List Char) : Option ℤ :=
  match s with
  | [] => some 0
  | e :: t =>
    if e = 'e' || e = 'E' then
      let (sg, t1) : ℤ × List Char :=
        match t with
        | '+' :: r => (1, r)
        | '-' :: r => (-1, r)
        | r => (1, r)
      let ds := t1.takeWhile isDigitC
      let rest := t1.drop ds.length
      if ds.isEmpty || !rest.isEmpty then none
      else some (sg * (digitsToNat ds : ℤ))
    else none

/-- Assemble a finite float value from sign, integer digits, fraction digits
and decimal exponent. -/
def mkDec (pos : Bool) (ip fp : List Char) (ex : ℤ) : ℚ :=
  let mant : ℤ := (digitsToNat ip * 10 ^ fp.length + digitsToNat fp : ℕ)
  let sgn : ℤ := if pos then 1 else -1
  (sgn * mant : ℚ) / (10 : ℚ) ^ fp.length * (10 : ℚ) ^ ex

/-- Embedding of Python float(str): optional surrounding whitespace, optional
sign, then inf / infinity / nan (case-insensitive) or a decimal literal
with optional fraction and exponent.  (Python also allows underscore digit
grouping, which no claim touches and this model omits.) -/
def pyFloat (s : List Char) : Option FVal :=
  let t := pyStripL s
  match t with
  | [] => none
  | _ =>
    let (pos, t1) : Bool × List Char :=
      match t with
      | '+' :: r => (true, r)
      | '-' :: r => (false, r)
      | r => (true, r)
    let low := t1.map Char.toLower
    if low = "inf".toList || low = "infinity".toList then some (.inf pos)
    else if low = "nan".toList then some .nan
    else
      let ip := t1.takeWhile isDigitC
      let r1 := t1.drop ip.length
      let (fp, r2) : List Char × List Char :=
        match r1 with
        | '.' :: r => (r.takeWhile isDigitC, r.drop (r.takeWhile isDigitC).length)
        | r => ([], r)
      if ip.isEmpty && fp.isEmpty then none
      else
        match parseExpSuffix r2 with
        | none => none
        | some ex => some (.fin (mkDec pos ip fp ex))

/-- JSON values as produced by Python json.loads (numbers are floats or ints,
both modelled by FVal; NaN / Infinity literals are accepted by default). -/
inductive Json where
  | null
  | bool (b : Bool)
  | num (v : FVal)
  | str (s : String)
  | arr (xs : List Json)
  | obj (fields : List (String × Json))

/-- A Python dict is modelled as an association list in which the last
binding of a key wins (dict insertion and overwrite both append). -/
abbrev Dict := List (String × Json)

/-- Dict lookup: the value of the last binding of the key, if any. -/
def getD (d : Dict) (k : String) : Option Json :=
  d.foldl (fun a p => if p.1 = k then some p.2 else a) none

/-- Dict assignment d[k] = v: appending preserves all other keys and makes
the new binding the one that getD sees. -/
def setD (d : Dict) (k : String) (v : Json) : Dict := d ++ [(k, v)]

theorem getD_setD_same (d : Dict) (k : String) (v : Json) :
    getD (setD d k v) k = some v := by
  simp [getD, setD, List.foldl_append]

theorem getD_setD_ne (d : Dict) (k k' : String) (v : Json) (h : k ≠ k') :
    getD (setD d k v) k' = getD d k' := by
  simp [getD, setD, List.foldl_append, h]

/-- JSON whitespace as accepted by Python json.loads. -/
def isJsonWs (c : Char) : Bool :=
  c = ' ' || c = '\t' || c = '\n' || c = '\x0d'

def skipWs (s : List Char) : List Char := s.dropWhile isJsonWs

def hexDigitVal (c : Char) : Option ℕ :=
  let n := c.toNat
  if 48 ≤ n && n ≤ 57 then some (n - 48)
  else if 97 ≤ n && n ≤ 102 then some (n - 87)
  else if 65 ≤ n && n ≤ 70 then some (n - 55)
  else none

/-- JSON string body, called after the opening quote: returns the decoded
content and the remainder after the closing quote.  Python json in strict
mode (the default) rejects unescaped control characters below 0x20 and
unknown escapes. -/
def parseStrBody : ℕ → List Char → Option (List Char × List Char)
  | 0, _ => none
  | _, [] => none
  | fuel + 1, c :: rest =>
    if c = '"' then some ([], rest)
    else if c = '\\' then
      match rest with
      | [] => none
      | e :: rest2 =>
        let esc : Option (Char × List Char) :=
          if e = '"' then some ('"', rest2)
          else if e = '\\' then some ('\\', rest2)
          else if e = '/' then some ('/', rest2)
          else if e = 'b' then some ('\x08', rest2)
          else if e = 'f' then some ('\x0c', rest2)
          else if e = 'n' then some ('\n', rest2)
          else if e = 'r' then some ('\x0d', rest2)
          else if e = 't' then some ('\t', rest2)
          else if e = 'u' then
            match rest2 with
            | h1 :: h2 :: h3 :: h4 :: rest3 =>
              match hexDigitVal h1, hexDigitVal h2, hexDigitVal h3, hexDigitVal h4 with
              | some a, some b, some c', some d =>
                some (Char.ofNat (((a * 16 + b) * 16 + c') * 16 + d), rest3)
              | _, _, _, _ => none
            | _ => none
          else none
        match esc with
        | none => none
        | some (ch, r) => (parseStrBody fuel r).map fun p => (ch :: p.1, p.2)
    else if c.toNat < 32 then none
    else (parseStrBody fuel rest).map fun p => (c :: p.1, p.2)

/-- JSON number literal, per the grammar Python json uses:
an optional minus sign, 0 or a nonzero-led digit run, an optional fraction
(dot plus at least one digit) and an optional exponent.  Returns the value
and the unconsumed remainder. -/
def parseJNum (s : List Char) : Option (ℚ × List Char) :=
  let (pos, s1) : Bool × List Char :=
    match s with
    | '-' :: r => (false, r)
    | r => (true, r)
  match s1 with
  | [] => none
  | d :: _ =>
    if !isDigitC d then none
    else
      let ip := if d = '0' then ['0'] else s1.takeWhile isDigitC
      let r1 := s1.drop ip.length
      let (fp, r2) : List Char × List Char :=
        match r1 with
        | '.' :: r =>
          let ds := r.takeWhile isDigitC
          if ds.isEmpty then ([], '.' :: r) else (ds, r.drop ds.length)
        | _ => ([], r1)
      let (ex, r3) : ℤ × List Char :=
        match r2 with
        | e :: t =>
          if e = 'e' || e = 'E' then
            let (sg, t1) : ℤ × List Char :=
              match t with
              | '+' :: r => (1, r)
              | '-' :: r => (-1, r)
              | r => (1, r)
            let ds := t1.takeWhile isDigitC
            if ds.isEmpty then (0, r2) else (sg * (digitsToNat ds : ℤ), t1.drop ds.length)
          else (0, r2)
        | [] => (0, r2)
      some (mkDec pos ip fp ex, r3)

mutual

/-- JSON value parser (fuel-based; fuel bounds the recursion depth, which is
bounded by the input length for any parseable input). -/
def parseVal : ℕ → List Char → Option (Json × List Char)
  | 0, _ => none
  | fuel + 1, s =>
    match skipWs s with
    | [] => none
    | '{' :: rest => parseObjStart fuel rest
    | '[' :: rest => parseArrStart fuel rest
    | '"' :: rest => (parseStrBody (rest.length + 1) rest).map fun p => (Json.str ⟨p.1⟩, p.2)
    | c :: rest =>
      if c = 't' && rest.take 3 = "rue".toList then some (Json.bool true, rest.drop 3)
      else if c = 'f' && rest.take 4 = "alse".toList then some (Json.bool false, rest.drop 4)
      else if c = 'n' && rest.take 3 = "ull".toList then some (Json.null, rest.drop 3)
      else if c = 'N' && rest.take 2 = "aN".toList then some (Json.num .nan, rest.drop 2)
      else if c = 'I' && rest.take 7 = "nfinity".toList then
        some (Json.num (.inf true), rest.drop 7)
      else if c = '-' && rest.take 8 = "Infinity".toList then
        some (Json.num (.inf false), rest.drop 8)
      else (parseJNum (c :: rest)).map fun p => (Json.num (.fin p.1), p.2)
termination_by structural fuel _ => fuel

/-- Array parser, called right after the opening bracket. -/
def parseArrStart : ℕ → List Char → Option (Json × List Char)
  | 0, _ => none
  | fuel + 1, s =>
    match skipWs s with
    | ']' :: rest => some (Json.arr [], rest)
    | s1 =>
      match parseVal fuel s1 with
      | none => none
      | some (v, r) => parseArrTail fuel r [v]
termination_by structural fuel _ => fuel

/-- Array continuation: expects a closing bracket or a comma and a value. -/
def parseArrTail : ℕ → List Char → List Json → Option (Json × List Char)
  | 0, _, _ => none
  | fuel + 1, s, acc =>
    match skipWs s with
    | ']' :: rest => some (Json.arr acc.reverse, rest)
    | ',' :: rest =>
      match parseVal fuel rest with
      | none => none
      | some (v, r) => parseArrTail fuel r (v :: acc)
    | _ => none
termination_by structural fuel _ _ => fuel

/-- Object parser, called right after the opening brace. -/
def parseObjStart : ℕ → List Char → Option (Json × List Char)
  | 0, _ => none
  | fuel + 1, s =>
    match skipWs s with
    | '}' :: rest => some (Json.obj [], rest)
    | '"' :: rest => parseObjMem fuel rest []
    | _ => none
termination_by structural fuel _ => fuel

/-- One object member, called right after the opening quote of the key. -/
def parseObjMem : ℕ → List Char → List (String × Json) → Option (Json × List Char)
  | 0, _, _ => none
  | fuel + 1, s, acc =>
    match parseStrBody (s.length + 1) s with
    | none => none
    | some (key, r1) =>
      match skipWs r1 with
      | ':' :: r2 =>
        match parseVal fuel r2 with
        | none => none
        | some (v, r3) => parseObjTail fuel r3 ((⟨key⟩, v) :: acc)
      | _ => none
termination_by structural fuel _ _ => fuel

/-- Object continuation: expects a closing brace or a comma and a member. -/
def parseObjTail : ℕ → List Char → List (String × Json) → Option (Json × List Char)
  | 0, _, _ => none
  | fuel + 1, s, acc =>
    match skipWs s with
    | '}' :: rest => some (Json.obj acc.reverse, rest)
    | ',' :: rest =>
      match skipWs rest with
      | '"' :: r1 => parseObjMem fuel r1 acc
      | _ => none
    | _ => none
termination_by structural fuel _ _ => fuel

end

/-- Embedding of Python json.loads: parse one JSON document with nothing but
whitespace after it.  The fuel bounds only the parser's recursion depth,
which never exceeds twice the input length for inputs json accepts. -/
def jsonLoads (s : List Char) : Option Json :=
  match parseVal (2 * s.length + 8) s with
  | some (j, rest) => if skipWs rest = [] then some j else none
  | none => none

/-! ## Response Interpreter: the JSON repair pass (_repair_json) -/

/-- First repair rule: re.sub of a comma between two digits by a dot.
re.sub scans left to right and continues after each (non-overlapping)
match. -/
def repairCommas : List Char → List Char
  | a :: b :: c :: rest =>
    if isDigitC a && b = ',' && isDigitC c then a :: '.' :: c :: repairCommas rest
    else a :: repairCommas (b :: c :: rest)
  | s => s

/-- Python regex word character, ASCII part. -/
def isWordChar (c : Char) : Bool := c.isAlphanum || c = '_'

def isWordOrQuote (c : Char) : Bool := c = '"' || isWordChar c

/-- Second repair rule: a quote with a quote-or-word character right before
and right after it gets a backslash inserted (lookarounds consume nothing,
so the scan resumes after the quote, with the original characters as
context). The first argument is the previous character of the original
string (a NUL sentinel at the start, where the lookbehind cannot match). -/
def repairQuotes : Char → List Char → List Char
  | _, [] => []
  | prev, c :: rest =>
    if c = '"' && isWordOrQuote prev &&
        (match rest with | r :: _ => isWordOrQuote r | [] => false) then
      '\\' :: '"' :: repairQuotes c rest
    else c :: repairQuotes c rest

/-- Match an optional whitespace run followed by a closing brace or bracket;
returns the whitespace, the closer and the remainder. -/
def wsThenClose : List Char → Option (List Char × Char × List Char)
  | [] => none
  | c :: rest =>
    if c = '\x7d' || c = ']' then some ([], c, rest)
    else if isPyWs c then (wsThenClose rest).map fun p => (c :: p.1, p.2.1, p.2.2)
    else none

/-- Third repair rule: re.sub removing a comma when followed by optional
whitespace and a closing brace or bracket; the match consumes through the
closer, and scanning resumes after it.  Fuel-based: every recursive call
consumes at least one character, so the input length is enough fuel. -/
def repairTrailingF : ℕ → List Char → List Char
  | 0, s => s
  | _, [] => []
  | fuel + 1, c :: rest =>
    if c = ',' then
      match wsThenClose rest with
      | some (ws, b, r) => ws ++ b :: repairTrailingF fuel r
      | none => c :: repairTrailingF fuel rest
    else c :: repairTrailingF fuel rest

def repairTrailing (s : List Char) : List Char := repairTrailingF s.length s

/-- Embedding of _repair_json (src/services/ai_service.py lines 352-365):
decimal commas, then stray-quote escaping, then trailing commas. -/
def repair_json (s : List Char) : List Char :=
  repairTrailing (repairQuotes '\x00' (repairCommas s))

/-! ## Response Interpreter: span extraction and parse front end -/

/-- Embedding of re.search of an opening brace, a greedy dot-matches-newline
run and a closing brace: the span from the first opening brace to the last
closing brace, provided some closing brace follows the first opening
brace. -/
def extractSpan (s : List Char) : Option (List Char) :=
  match s.dropWhile (fun c => !(c = '\x7b')) with
  | [] => none
  | t =>
    match t.reverse.dropWhile (fun c => !(c = '\x7d')) with
    | [] => none
    | u => some u.reverse

/-- json.loads, retried on the repaired string when strict parsing fails
(src/services/ai_service.py lines 291-297). -/
def jsonLoadsR (s : List Char) : Option Json :=
  match jsonLoads s with
  | some j => some j
  | none => jsonLoads (repair_json s)

/-! ## Response Interpreter: schema validation and normalization back end -/

def requiredKeys : List String :=
  ["status", "overall_score", "symmetry_score", "proportion_score",
   "skin_quality_score", "features_harmony_score",
   "scientific_explanation", "recommendations"]

def scoreKeys : List String :=
  ["overall_score", "symmetry_score", "proportion_score",
   "skin_quality_score", "features_harmony_score"]

def validStatuses : List String := ["denied", "improvable", "feasible"]

/-- The membership test of the status value against the list of valid status
strings (a non-string value never equals a string, hence tests False). -/
def statusOkJ : Json → Bool
  | .str s => validStatuses.contains s
  | _ => false

/-- Embedding of the status normalization (lines 311-315): an unrecognized
status is logged and coerced to feasible.  The key is guaranteed present by
the required-keys check that runs first. -/
def normStatus (d : Dict) : Dict :=
  match getD d "status" with
  | some v => if statusOkJ v then d else setD d "status" (.str "feasible")
  | none => d

/-- Conversion of a JSON value to a Python float as the score loop does
(lines 323-331): a string goes through float() after comma replacement, a
number is used as is, and a bool passes the isinstance check because Python
bool is a subclass of int; anything else fails the isinstance check. -/
def toFV : Json → Option FVal
  | .str s => pyFloat (commaToDot s.toList)
  | .num f => some f
  | .bool b => some (.fin (if b then 1 else 0))
  | _ => none

/-- Embedding of one iteration of the score normalization loop (lines
323-337): convert, range-check with clamping, round to one decimal. -/
def normScoreVal (o : Option Json) : Except String FVal :=
  match o with
  | none => .error "KeyError"
  | some v =>
    match toFV v with
    | none => .error "la puntuacion debe ser numerica"
    | some f =>
      let f2 := if !(pyLe (.fin 0) f && pyLe f (.fin 10)) then pyClamp f else f
      .ok (roundFV f2)

/-- The score normalization loop over the required score keys. -/
def normScores : List String → Dict → Except String Dict
  | [], d => .ok d
  | k :: ks, d =>
    match normScoreVal (getD d k) with
    | .error e => .error e
    | .ok f => normScores ks (setD d k (.num f))

def strippedLen (s : String) : ℕ := (pyStripL s.toList).length

/-- Embedding of the text-field check (lines 340-344): the field must be a
string (calling strip() on anything else raises AttributeError, which the
surrounding handler turns into a parse failure) whose stripped length is at
least 50. -/
def textOk (d : Dict) (k : String) : Bool :=
  match getD d k with
  | some (.str s) => decide (50 ≤ strippedLen s)
  | _ => false

/-- The back end of _parse_ai_response on a parsed JSON object: required-key
check, status normalization, score normalization, text validation. -/
def backEndObj (fields : Dict) : Except String Dict :=
  match requiredKeys.find? (fun k => (getD fields k).isNone) with
  | some k => .error ("Clave requerida " ++ k ++ " no encontrada")
  | none =>
    let d1 := normStatus fields
    match normScores scoreKeys d1 with
    | .error e => .error e
    | .ok d2 =>
      if !(textOk d2 "scientific_explanation") then
        .error "Explicacion cientifica demasiado corta"
      else if !(textOk d2 "recommendations") then
        .error "Recomendaciones demasiado cortas"
      else .ok d2

/-- The back end on an arbitrary parsed JSON value.  A non-object cannot
actually reach this point (the extracted span starts with an opening brace,
which no repair rule removes), and in Python the key-membership test on a
non-dict raises, which the handler turns into a failure as well. -/
def backEnd : Json → Except String Dict
  | .obj fields => backEndObj fields
  | _ => .error "la respuesta no es un objeto JSON"

/-- Embedding of _parse_ai_response (src/services/ai_service.py lines
275-350): strip, locate the brace span, parse with repair retry, then
validate and normalize. -/
def parse_ai_response (t : String) : Except String Dict :=
  match extractSpan (pyStripL t.toList) with
  | none => .error "No se encontro JSON en la respuesta de IA"
  | some span =>
    match jsonLoadsR span with
    | none => .error "JSON invalido"
    | some j => backEnd j

/-! ## Consistency validation (_validate_analysis_result) and fallback -/

/-- Python float addition on the values reachable here. -/
def addF : FVal → FVal → FVal
  | .fin a, .fin b => .fin (a + b)
  | .fin _, .inf p => .inf p
  | .inf p, .fin _ => .inf p
  | .inf p, .inf q => if p = q then .inf p else .nan
  | .nan, _ => .nan
  | _, .nan => .nan

def negF : FVal → FVal
  | .fin a => .fin (-a)
  | .inf p => .inf (!p)
  | .nan => .nan

def subF (a b : FVal) : FVal := addF a (negF b)

/-- Division by a positive integer constant. -/
def divByNat : FVal → ℕ → FVal
  | .fin a, n => .fin (a / n)
  | .inf p, _ => .inf p
  | .nan, _ => .nan

def absF : FVal → FVal
  | .fin a => .fin |a|
  | .inf _ => .inf true
  | .nan => .nan

/-- Reading a score entry the way Python arithmetic accepts it: numbers as
they are, bools as 0/1 (bool is an int subclass); a missing key raises
KeyError and any other type raises TypeError in the sum, both modelled as
none. -/
def numOf : Option Json → Option FVal
  | some (.num f) => some f
  | some (.bool b) => some (.fin (if b then 1 else 0))
  | _ => none

/-- Embedding of _validate_analysis_result (src/services/ai_service.py lines
367-387): if the overall score deviates from the mean of the four detail
scores by strictly more than 1.5, it is overwritten with that mean rounded
to one decimal.  none models an exception escaping the function. -/
def validate_analysis_result (d : Dict) : Option Dict :=
  match numOf (getD d "symmetry_score"), numOf (getD d "proportion_score"),
        numOf (getD d "skin_quality_score"), numOf (getD d "features_harmony_score"),
        numOf (getD d "overall_score") with
  | some s1, some s2, some s3, some s4, some o =>
    let avg := divByNat (addF (addF (addF s1 s2) s3) s4) 4
    if pyLt (.fin (3 / 2)) (absF (subF o avg)) then
      some (setD d "overall_score" (.num (roundFV avg)))
    else some d
  | _, _, _, _, _ => none

/-- The fixed failure-explanation text of _get_default_analysis_result, with
the failure reason embedded. -/
def defaultExplanation (msg : String) : String :=
  "❌ Error técnico en el análisis: " ++ msg ++
  ". El sistema utiliza criterios científicos establecidos basados en investigación antropométrica y psicología de la percepción. Los parámetros incluyen análisis de simetría facial (Langlois & Roggman, 1990), proporciones faciales según la secuencia de Fibonacci y ratios áureos (Marquardt, 2005), evaluación de calidad dérmica como indicador de salud (Fink et al., 2006), y análisis de armonía entre rasgos faciales (Rhodes et al., 2001). Para un análisis exitoso, se requiere una imagen de alta calidad con iluminación uniforme y el rostro completamente visible."

/-- The fixed generic recommendations text of _get_default_analysis_result. -/
def defaultRecommendations : String :=
  "Para obtener un análisis preciso y completo, considera estos factores técnicos: 1) Iluminación: Usa luz natural suave o iluminación frontal uniforme, evita sombras duras que distorsionen la percepción facial. 2) Composición: El rostro debe ocupar 60-80% del encuadre, estar centrado y en ángulo frontal (0-15°). 3) Calidad técnica: Resolución mínima de 800x800 píxeles, formato JPEG o PNG sin compresión excesiva. 4) Expresión: Mantén una expresión neutra o ligeramente positiva para un análisis objetivo. Adicionalmente, para potenciar tu apariencia natural: mantén una rutina de cuidado facial consistente, hidrátate adecuadamente, y asegúrate de descansar lo suficiente para una piel radiante."

/-- Embedding of _get_default_analysis_result (lines 389-406): the fallback
Scorecard returned on any failure. -/
def get_default_analysis_result (msg : String) (model : String) : Dict :=
  [("status", .str "improvable"),
   ("overall_score", .num (.fin 5)),
   ("symmetry_score", .num (.fin 5)),
   ("proportion_score", .num (.fin 5)),
   ("skin_quality_score", .num (.fin 5)),
   ("features_harmony_score", .num (.fin 5)),
   ("scientific_explanation", .str (defaultExplanation msg)),
   ("recommendations", .str defaultRecommendations),
   ("processing_time", .num (.fin (1 / 10))),
   ("ai_model", .str model),
   ("attempt", .num (.fin 1)),
   ("error", .bool true)]

/-! ## Model Invoker: the retry loop of analyze_facial_attractiveness -/

/-- Success metadata added to a validated result (lines 57-61): wall-clock
processing time (a parameter of the model), the model name and the 1-based
attempt number. -/
def mkAttemptMeta (d : Dict) (elapsed : ℚ) (model : String) (attempt : ℕ) : Dict :=
  setD (setD (setD d "processing_time" (.num (.fin elapsed)))
    "ai_model" (.str model)) "attempt" (.num (.fin attempt))

/-- One iteration of the retry loop body (lines 45-65): remote call (the
oracle gives either an exception or the response text of 0-based attempt i),
parse, validate, then metadata. -/
def oneAttempt (oracle : ℕ → Except String String) (elapsed : ℚ) (model : String)
    (i : ℕ) : Except String Dict :=
  match oracle i with
  | .error e => .error e
  | .ok text =>
    match parse_ai_response text with
    | .error e => .error e
    | .ok d =>
      match validate_analysis_result d with
      | none => .error "TypeError"
      | some d2 => .ok (mkAttemptMeta d2 elapsed model (i + 1))

/-- Outcome of the retry loop: the result or the re-raised last exception,
the number of attempts started, and the total time slept between attempts. -/
structure LoopOut where
  outcome : Except String Dict
  attemptsUsed : ℕ
  totalSleep : ℕ

/-- The retry loop over the remaining 0-based attempt indices: a failure on
the last index is re-raised without sleeping; otherwise the loop sleeps
retry_delay = 2 and moves on (lines 44-71 with max_retries = 3). -/
def loopGo (oracle : ℕ → Except String String) (elapsed : ℚ) (model : String) :
    List ℕ → ℕ → LoopOut
  | [], slept => ⟨.error "loop fell through", 0, slept⟩
  | i :: rest, slept =>
    match oneAttempt oracle elapsed model i with
    | .ok d => ⟨.ok d, i + 1, slept⟩
    | .error e =>
      match rest with
      | [] => ⟨.error e, i + 1, slept⟩
      | _ :: _ => loopGo oracle elapsed model rest (slept + 2)

/-- Result of analyze_facial_attractiveness: the returned dict plus the
instrumented attempt count and total sleep. -/
structure AnalyzeOut where
  result : Dict
  attemptsUsed : ℕ
  totalSleep : ℕ

/-- Embedding of analyze_facial_attractiveness (lines 27-76).  pre models
the preparation steps before the loop (image decode, optimization, prompt
construction); the oracle models the remote model per attempt; elapsed
models the wall-clock time of the successful attempt.  Any escaped
exception is absorbed by the outer handler, which returns the default
result embedding the exception message. -/
def analyze_facial_attractiveness (pre : Except String Unit)
    (oracle : ℕ → Except String String) (elapsed : ℚ) (model : String) : AnalyzeOut :=
  match pre with
  | .error e => ⟨get_default_analysis_result e model, 0, 0⟩
  | .ok _ =>
    match loopGo oracle elapsed model [0, 1, 2] 0 with
    | ⟨.ok d, used, slept⟩ => ⟨d, used, slept⟩
    | ⟨.error e, used, slept⟩ => ⟨get_default_analysis_result e model, used, slept⟩

/-! ## Interpreter-level composition and extraction helpers -/

/-- The Response Interpreter as the loop body uses it: parse, then
reconciliation (lines 52-55); a validation exception becomes a failed
attempt like a parse failure. -/
def interpretResponse (t : String) : Except String Dict :=
  match parse_ai_response t with
  | .error e => .error e
  | .ok d =>
    match validate_analysis_result d with
    | none => .error "TypeError"
    | some d2 => .ok d2

/-- The dict of a successful Except outcome (empty on failure). -/
def okD : Except String Dict → Dict
  | .ok d => d
  | .error _ => []

/-- The JSON object the parse front end produced for a response text. -/
def loadedJson (t : String) : Option Json :=
  (extractSpan (pyStripL t.toList)).bind jsonLoadsR

/-- Key lookup directly on a parsed JSON value (nothing on a non-object). -/
def getJ : Json → String → Option Json
  | .obj fields, k => getD fields k
  | _, _ => none

/-- The fields of a loaded JSON object (empty otherwise). -/
def objFieldsOf : Option Json → Dict
  | some (.obj f) => f
  | _ => []

def textKeys : List String := ["scientific_explanation", "recommendations"]

/-! ## Arithmetic lemmas about the rounding and clamping steps -/

theorem rhe_nonneg (x : ℚ) (h : 0 ≤ x) : 0 ≤ rhe x := by
  unfold rhe
  have hf : (0 : ℤ) ≤ ⌊x⌋ := Int.floor_nonneg.mpr h
  split_ifs <;> omega

theorem rhe_le (x : ℚ) (n : ℤ) (h : x ≤ n) : rhe x ≤ n := by
  unfold rhe
  have hf : ⌊x⌋ ≤ n := by
    have := Int.floor_le_floor h
    rwa [Int.floor_intCast] at this
  have hfx : (⌊x⌋ : ℚ) ≤ x := Int.floor_le x
  split_ifs with h1 h2 h3
  · exact hf
  · -- the fraction exceeds one half, so x is at least floor + 1/2
    have : (⌊x⌋ : ℚ) + 1 / 2 < x := by linarith
    have hlt : (⌊x⌋ : ℚ) + 1 / 2 < (n : ℚ) := lt_of_lt_of_le this h
    have : ⌊x⌋ < n := by exact_mod_cast (by linarith : (⌊x⌋ : ℚ) < n)
    omega
  · exact hf
  · have heq : x - ⌊x⌋ = 1 / 2 := le_antisymm (not_lt.mp h2) (not_lt.mp h1)
    have : (⌊x⌋ : ℚ) + 1 / 2 ≤ (n : ℚ) := by linarith
    have : ⌊x⌋ < n := by
      by_contra hc
      push_neg at hc
      have : (n : ℚ) ≤ (⌊x⌋ : ℚ) := by exact_mod_cast hc
      linarith
    omega

theorem round1_nonneg (q : ℚ) (h : 0 ≤ q) : 0 ≤ round1 q := by
  unfold round1
  have := rhe_nonneg (q * 10) (by positivity)
  positivity

theorem round1_le10 (q : ℚ) (h : q ≤ 10) : round1 q ≤ 10 := by
  unfold round1
  have h100 : rhe (q * 10) ≤ (100 : ℤ) := rhe_le (q * 10) 100 (by push_cast; linarith)
  have : (rhe (q * 10) : ℚ) ≤ 100 := by exact_mod_cast h100
  linarith

theorem round1_oneDec (q : ℚ) : oneDec (round1 q) := by
  unfold oneDec round1
  have : (rhe (q * 10) : ℚ) / 10 * 10 = (rhe (q * 10) : ℚ) := by
    field_simp
  rw [this, Rat.den_intCast]

/-- The score normalization always produces a finite one-decimal value
inside [0, 10] - the rounding of the clamped (or already in-range) input. -/
theorem normScoreVal_ok (o : Option Json) (f : FVal)
    (h : normScoreVal o = .ok f) :
    ∃ q, f = .fin q ∧ 0 ≤ q ∧ q ≤ 10 ∧ oneDec q := by
  unfold normScoreVal at h
  match o with
  | none => simp at h
  | some v =>
    simp only [] at h
    match htf : toFV v with
    | none => rw [htf] at h; simp at h
    | some f0 =>
      rw [htf] at h
      simp only [Except.ok.injEq] at h
      subst h
      -- the clamped-or-in-range value is finite and within bounds
      have key : ∃ q0, (if !(pyLe (.fin 0) f0 && pyLe f0 (.fin 10)) then pyClamp f0 else f0)
          = .fin q0 ∧ 0 ≤ q0 ∧ q0 ≤ 10 := by
        match f0 with
        | .fin a =>
          by_cases hin : (0 : ℚ) ≤ a ∧ a ≤ 10
          · refine ⟨a, ?_, hin.1, hin.2⟩
            simp [pyLe, hin.1, hin.2]
          · refine ⟨max 0 (min 10 a), ?_, le_max_left _ _, ?_⟩
            · have hcl : pyClamp (.fin a) = .fin (max 0 (min 10 a)) := by
                unfold pyClamp
                simp only [pyLt]
                by_cases h10 : a < 10
                · simp only [decide_eq_true_eq, h10, if_true]
                  by_cases h0 : 0 < a
                  · simp [h0, min_eq_right (le_of_lt h10), max_eq_right (le_of_lt h0)]
                  · push_neg at h0
                    simp [h0, not_lt.mpr h0, min_eq_right (le_of_lt h10), max_eq_left h0]
                · push_neg at h10
                  have : ¬ (a < 10) := not_lt.mpr h10
                  simp only [this, decide_eq_true_eq, if_false]
                  simp [min_eq_left h10, (by norm_num : (0:ℚ) < 10)]
              rw [← hcl]
              have : ¬ (pyLe (.fin 0) (.fin a) && pyLe (.fin a) (.fin 10)) = true := by
                simp [pyLe]
                intro h0
                by_contra hc
                push_neg at hc
                exact hin ⟨h0, hc⟩
              simp [this]
            · exact max_le (by norm_num) (min_le_left _ _)
        | .inf p =>
          refine ⟨if p then 10 else 0, ?_, by split <;> norm_num, by split <;> norm_num⟩
          cases p <;> simp [pyLe, pyClamp, pyLt]
        | .nan =>
          refine ⟨10, ?_, by norm_num, le_refl _⟩
          simp [pyLe, pyClamp, pyLt]
      obtain ⟨q0, hq0, h0, h10⟩ := key
      rw [hq0]
      exact ⟨round1 q0, rfl, round1_nonneg q0 h0, round1_le10 q0 h10,
        round1_oneDec q0⟩

/-! ## Lemmas about the score-normalization loop -/

/-- A score entry blocks the loop exactly when the key is missing or the
value fails the numeric conversion. -/
def scoreBad (o : Option Json) : Prop :=
  match o with
  | none => True
  | some v => toFV v = none

/-- Keys outside the processed list are untouched by the loop. -/
theorem normScores_ok_not_mem (ks : List String) (d d2 : Dict)
    (h : normScores ks d = .ok d2) :
    ∀ k, k ∉ ks → getD d2 k = getD d k := by
  induction ks generalizing d with
  | nil =>
    intro k _
    unfold normScores at h
    simp only [Except.ok.injEq] at h
    rw [h]
  | cons k0 ks ih =>
    intro k hk
    unfold normScores at h
    match hv : normScoreVal (getD d k0) with
    | .error e => rw [hv] at h; simp at h
    | .ok f =>
      rw [hv] at h
      simp only [] at h
      have hk0 : k ≠ k0 := fun he => hk (he ▸ List.mem_cons_self k0 ks)
      have hks : k ∉ ks := fun he => hk (List.mem_cons_of_mem _ he)
      rw [ih _ h k hks, getD_setD_ne _ _ _ _ (Ne.symm hk0)]

/-- Every processed key holds a finite one-decimal score in [0, 10] after a
successful run of the loop. -/
theorem normScores_ok_mem (ks : List String) (d d2 : Dict)
    (hnd : ks.Nodup) (h : normScores ks d = .ok d2) :
    ∀ k ∈ ks, ∃ q, getD d2 k = some (.num (.fin q)) ∧ 0 ≤ q ∧ q ≤ 10 ∧ oneDec q := by
  induction ks generalizing d with
  | nil => intro k hk; simp at hk
  | cons k0 ks ih =>
    intro k hk
    unfold normScores at h
    match hv : normScoreVal (getD d k0) with
    | .error e => rw [hv] at h; simp at h
    | .ok f =>
      rw [hv] at h
      simp only [] at h
      rcases List.mem_cons.mp hk with hk0 | hks
      · subst hk0
        obtain ⟨q, hfq, h0, h10, hd⟩ := normScoreVal_ok _ _ hv
        have hkn : k ∉ ks := (List.nodup_cons.mp hnd).1
        have hpres := normScores_ok_not_mem ks _ _ h k hkn
        rw [hpres, getD_setD_same, hfq]
        exact ⟨q, rfl, h0, h10, hd⟩
      · exact ih _ (List.nodup_cons.mp hnd).2 h k hks

/-- A successful parse goes through a loaded JSON object and the back end. -/
theorem parse_ok_structure (t : String) (d : Dict)
    (h : parse_ai_response t = .ok d) :
    ∃ fields, loadedJson t = some (.obj fields) ∧ backEndObj fields = .ok d := by
  unfold parse_ai_response at h
  split at h
  · simp at h
  · rename_i s hsp
    split at h
    · simp at h
    · rename_i j hld
      match j with
      | .obj fields =>
        refine ⟨fields, ?_, h⟩
        unfold loadedJson
        rw [hsp]
        simpa using hld
      | .null | .bool _ | .num _ | .str _ | .arr _ => simp [backEnd] at h

/-- A successful back end run is exactly a successful score-normalization
run on the status-normalized fields (the text checks modify nothing). -/
theorem backEndObj_ok_structure (fields : Dict) (d : Dict)
    (h : backEndObj fields = .ok d) :
    normScores scoreKeys (normStatus fields) = .ok d := by
  unfold backEndObj at h
  split at h
  · simp at h
  · dsimp only at h
    split at h
    · simp at h
    · rename_i d2 hns
      split at h
      · simp at h
      · split at h
        · simp at h
        · simp only [Except.ok.injEq] at h
          rw [← h]
          exact hns

/-- C8 core: every required score of a successful parse is a finite
one-decimal rational in [0, 10]. -/
theorem parse_ok_scores (t : String) (d : Dict)
    (h : parse_ai_response t = .ok d) :
    ∀ k ∈ scoreKeys, ∃ q, getD d k = some (.num (.fin q)) ∧ 0 ≤ q ∧ q ≤ 10 ∧ oneDec q := by
  obtain ⟨fields, _, hbe⟩ := parse_ok_structure t d h
  exact normScores_ok_mem scoreKeys (normStatus fields) d (by decide)
    (backEndObj_ok_structure fields d hbe)

/-- Reconciliation output: scores stay finite one-decimal values in [0, 10],
and only the overall score can change. -/
theorem validate_ok_scores (d d2 : Dict)
    (h : validate_analysis_result d = some d2)
    (hs : ∀ k ∈ scoreKeys, ∃ q, getD d k = some (.num (.fin q)) ∧ 0 ≤ q ∧ q ≤ 10 ∧ oneDec q) :
    (∀ k ∈ scoreKeys, ∃ q, getD d2 k = some (.num (.fin q)) ∧ 0 ≤ q ∧ q ≤ 10 ∧ oneDec q) ∧
    (∀ k, k ≠ "overall_score" → getD d2 k = getD d k) := by
  obtain ⟨q1, hq1, h1a, h1b, h1c⟩ := hs "symmetry_score" (by decide)
  obtain ⟨q2, hq2, h2a, h2b, h2c⟩ := hs "proportion_score" (by decide)
  obtain ⟨q3, hq3, h3a, h3b, h3c⟩ := hs "skin_quality_score" (by decide)
  obtain ⟨q4, hq4, h4a, h4b, h4c⟩ := hs "features_harmony_score" (by decide)
  obtain ⟨qo, hqo, hoa, hob, hoc⟩ := hs "overall_score" (by decide)
  unfold validate_analysis_result at h
  rw [hq1, hq2, hq3, hq4, hqo] at h
  simp only [numOf, addF, divByNat, subF, negF, absF, pyLt, roundFV] at h
  by_cases hdev : (3 : ℚ) / 2 < |qo + -((q1 + q2 + q3 + q4) / 4)|
  · rw [if_pos (by simpa using hdev)] at h
    simp only [Option.some.injEq] at h
    subst h
    constructor
    · intro k hk
      by_cases hko : k = "overall_score"
      · subst hko
        refine ⟨_, by rw [getD_setD_same], ?_, ?_, ?_⟩
        · exact round1_nonneg _ (by push_cast; linarith)
        · exact round1_le10 _ (by push_cast; linarith)
        · exact round1_oneDec _
      · rw [getD_setD_ne _ _ _ _ (fun he => hko he.symm)]
        exact hs k hk
    · intro k hk
      rw [getD_setD_ne _ _ _ _ (fun he => hk he.symm)]
  · rw [if_neg (by simpa using hdev)] at h
    simp only [Option.some.injEq] at h
    subst h
    exact ⟨hs, fun _ _ => rfl⟩

/-! ## Concrete response texts used by witnesses and counterexamples -/

/-- A well-formed model response surrounded by prose. -/
def okText : String := String.join
  ["Here is my analysis: \x7b\"status\": \"feasible\", \"overall_score\": 7.5, ",
   "\"symmetry_score\": 9.0, \"proportion_score\": 9.0, \"skin_quality_score\": 9.0, ",
   "\"features_harmony_score\": 9.0, ",
   "\"scientific_explanation\": \"This explanation text is long enough to pass the fifty character check easily.\", ",
   "\"recommendations\": \"These recommendations are long enough to pass the fifty character check easily.\"\x7d done"]

/-- A denied response carrying nonzero scores. -/
def deniedText : String := String.join
  ["\x7b\"status\": \"denied\", \"overall_score\": 5.0, ",
   "\"symmetry_score\": 5.0, \"proportion_score\": 5.0, \"skin_quality_score\": 5.0, ",
   "\"features_harmony_score\": 5.0, ",
   "\"scientific_explanation\": \"The picture does not contain a recognizable human face at all, so scoring was declined.\", ",
   "\"recommendations\": \"Please retake the photograph with a clearly visible, well lit, front facing human face.\"\x7d"]

/-! ## C1: the denied-implies-zero-scores invariant -/

/-- C1, counterexample: the Interpreter (parse plus reconciliation) accepts
a denied response whose scores are all 5.0 and returns it with status
denied and overall score 5.0, not 0.0.  The invariant claimed by the spec
is not enforced anywhere in the code. -/
theorem C1_denied_nonzero_counterexample :
    (interpretResponse deniedText).isOk = true ∧
    getD (okD (interpretResponse deniedText)) "status" = some (.str "denied") ∧
    getD (okD (interpretResponse deniedText)) "overall_score" = some (.num (.fin 5)) ∧
    ¬ ((5 : ℚ) = 0) := by
  refine ⟨by rfl, by rfl, by rfl, by norm_num⟩

/-- C1, amended: a denied Scorecard produced by the Interpreter keeps its
parsed scores; they are finite one-decimal values in [0, 10] like under any
other status, but are not forced to 0.0. -/
theorem C1_denied_scores_amended (t : String) (d : Dict)
    (h : interpretResponse t = .ok d)
    (hden : getD d "status" = some (.str "denied")) :
    ∀ k ∈ scoreKeys, ∃ q, getD d k = some (.num (.fin q)) ∧ 0 ≤ q ∧ q ≤ 10 ∧ oneDec q := by
  unfold interpretResponse at h
  split at h
  · simp at h
  · rename_i d1 hp
    split at h
    · simp at h
    · rename_i d2 hv
      simp only [Except.ok.injEq] at h
      subst h
      exact (validate_ok_scores d1 d2 hv (parse_ok_scores t d1 hp)).1

/-- C1 witness: the amended statement applied to the concrete denied
response. -/
theorem C1_denied_scores_amended_witness :
    ∃ q, getD (okD (interpretResponse deniedText)) "overall_score"
      = some (.num (.fin q)) ∧ 0 ≤ q ∧ q ≤ 10 ∧ oneDec q :=
  C1_denied_scores_amended deniedText (okD (interpretResponse deniedText))
    (by rfl) (by rfl) "overall_score" (by decide)

/-! ## C2: the reconciliation rule -/

/-- C2: reconciliation overwrites the overall score with the mean of the
four detail scores rounded to one decimal exactly when the deviation
exceeds 1.5; at a deviation of exactly 1.5 or below nothing changes. -/
theorem C2_reconciliation (d : Dict) (o s1 s2 s3 s4 : ℚ)
    (ho : getD d "overall_score" = some (.num (.fin o)))
    (h1 : getD d "symmetry_score" = some (.num (.fin s1)))
    (h2 : getD d "proportion_score" = some (.num (.fin s2)))
    (h3 : getD d "skin_quality_score" = some (.num (.fin s3)))
    (h4 : getD d "features_harmony_score" = some (.num (.fin s4))) :
    (|o - (s1 + s2 + s3 + s4) / 4| > 3 / 2 →
      validate_analysis_result d =
        some (setD d "overall_score" (.num (.fin (round1 ((s1 + s2 + s3 + s4) / 4)))))) ∧
    (|o - (s1 + s2 + s3 + s4) / 4| ≤ 3 / 2 →
      validate_analysis_result d = some d) := by
  unfold validate_analysis_result
  rw [h1, h2, h3, h4, ho]
  simp only [numOf, addF, divByNat, subF, negF, absF, pyLt, roundFV]
  constructor
  · intro hgt
    rw [if_pos (by simpa [sub_eq_add_neg] using hgt)]
    norm_num
  · intro hle
    rw [if_neg (by simpa [sub_eq_add_neg] using not_lt.mpr hle)]

/-- Concrete parsed dict with details 9.0 and overall 7.4 (deviation 1.6). -/
def c2dictA : Dict :=
  [("overall_score", .num (.fin (37 / 5))), ("symmetry_score", .num (.fin 9)),
   ("proportion_score", .num (.fin 9)), ("skin_quality_score", .num (.fin 9)),
   ("features_harmony_score", .num (.fin 9))]

/-- Concrete parsed dict with details 9.0 and overall 7.5 (deviation exactly
1.5). -/
def c2dictB : Dict :=
  [("overall_score", .num (.fin (15 / 2))), ("symmetry_score", .num (.fin 9)),
   ("proportion_score", .num (.fin 9)), ("skin_quality_score", .num (.fin 9)),
   ("features_harmony_score", .num (.fin 9))]

/-- C2 witness: with details all 9.0 and overall 7.4 (deviation 1.6) the
overall score is rewritten to 9.0; with overall 7.5 (deviation exactly 1.5)
nothing changes. -/
theorem C2_reconciliation_witness :
    (validate_analysis_result c2dictA =
      some (setD c2dictA "overall_score" (.num (.fin (round1 ((9 + 9 + 9 + 9) / 4)))))) ∧
    (validate_analysis_result c2dictB = some c2dictB) := by
  constructor
  · refine (C2_reconciliation c2dictA (37 / 5) 9 9 9 9 rfl rfl rfl rfl rfl).1 ?_
    rw [show (37 : ℚ) / 5 - (9 + 9 + 9 + 9) / 4 = -(8 / 5) from by norm_num, abs_neg,
      abs_of_nonneg (show (0 : ℚ) ≤ 8 / 5 from by norm_num)]
    norm_num
  · refine (C2_reconciliation c2dictB (15 / 2) 9 9 9 9 rfl rfl rfl rfl rfl).2 ?_
    rw [show (15 : ℚ) / 2 - (9 + 9 + 9 + 9) / 4 = -(3 / 2) from by norm_num, abs_neg,
      abs_of_nonneg (show (0 : ℚ) ≤ 3 / 2 from by norm_num)]

/-! ## C8: normalization of the five required scores -/

/-- C8: every required score of a successful parse is obtained by numeric
conversion, clamping into [0, 10] and rounding to one decimal, hence is a
finite one-decimal value in [0, 10]. -/
theorem C8_required_scores_bounded (t : String) (d : Dict)
    (h : parse_ai_response t = .ok d) :
    ∀ k ∈ scoreKeys, ∃ q, getD d k = some (.num (.fin q)) ∧ 0 ≤ q ∧ q ≤ 10 ∧ oneDec q :=
  parse_ok_scores t d h

/-- C8 witness: the bound instantiated on a concrete successful parse. -/
theorem C8_required_scores_bounded_witness :
    ∃ q, getD (okD (parse_ai_response okText)) "overall_score"
      = some (.num (.fin q)) ∧ 0 ≤ q ∧ q ≤ 10 ∧ oneDec q :=
  C8_required_scores_bounded okText (okD (parse_ai_response okText)) (by rfl)
    "overall_score" (by decide)

/-! ## C9: optional sub-scores -/

/-- Status normalization touches only the status key. -/
theorem getD_normStatus_ne (fields : Dict) (k : String) (hk : k ≠ "status") :
    getD (normStatus fields) k = getD fields k := by
  unfold normStatus
  split
  · split
    · rfl
    · exact getD_setD_ne _ _ _ _ (fun he => hk he.symm)
  · rfl

/-- Keys other than the status and the five required scores flow through
the parse pipeline unchanged from the loaded JSON object. -/
theorem parse_ok_passthrough (t : String) (d : Dict)
    (h : parse_ai_response t = .ok d) :
    ∀ k, k ∉ scoreKeys → k ≠ "status" →
      getD d k = getD (objFieldsOf (loadedJson t)) k := by
  intro k hks hkst
  obtain ⟨fields, hload, hbe⟩ := parse_ok_structure t d h
  have hns := backEndObj_ok_structure fields d hbe
  rw [hload]
  show getD d k = getD fields k
  rw [normScores_ok_not_mem scoreKeys (normStatus fields) d hns k hks,
    getD_normStatus_ne fields k hkst]

/-- A well-formed response with an out-of-range optional sub-score. -/
def optText : String := String.join
  ["\x7b\"status\": \"feasible\", \"overall_score\": 7.5, ",
   "\"symmetry_score\": 9.0, \"proportion_score\": 9.0, \"skin_quality_score\": 9.0, ",
   "\"features_harmony_score\": 9.0, \"eye_appeal_score\": 25, \"nose_harmony_score\": 7.125, ",
   "\"scientific_explanation\": \"This explanation text is long enough to pass the fifty character check easily.\", ",
   "\"recommendations\": \"These recommendations are long enough to pass the fifty character check easily.\"\x7d"]

/-- C9, counterexample: optional sub-scores are never validated; a parse
can succeed while an optional sub-score is 25, far outside [0, 10] (and
7.125, which does not have one decimal of precision, also survives). -/
theorem C9_optional_scores_counterexample :
    (parse_ai_response optText).isOk = true ∧
    getD (okD (parse_ai_response optText)) "eye_appeal_score" = some (.num (.fin 25)) ∧
    ¬ ((25 : ℚ) ≤ 10) ∧
    getD (okD (parse_ai_response optText)) "nose_harmony_score" = some (.num (.fin (57 / 8))) ∧
    ¬ oneDec (57 / 8) := by
  refine ⟨by rfl, by rfl, by norm_num, by rfl, by decide⟩

/-- C9, amended: the optional sub-scores present in a successful parse are
passed through from the model JSON without any range or precision
enforcement (only the status key and the five required scores are ever
rewritten). -/
theorem C9_optional_scores_passthrough (t : String) (d : Dict)
    (h : parse_ai_response t = .ok d) (k : String)
    (hks : k ∉ scoreKeys) (hkst : k ≠ "status") :
    getD d k = getD (objFieldsOf (loadedJson t)) k :=
  parse_ok_passthrough t d h k hks hkst

/-- C9 witness: the pass-through applied to the concrete response with the
out-of-range optional sub-score. -/
theorem C9_optional_scores_passthrough_witness :
    getD (okD (parse_ai_response optText)) "eye_appeal_score"
      = getD (objFieldsOf (loadedJson optText)) "eye_appeal_score" :=
  C9_optional_scores_passthrough optText (okD (parse_ai_response optText))
    (by rfl) "eye_appeal_score" (by decide) (by decide)

/-! ## C7: the parse failure characterization -/

/-- The claim's text-field failure condition: a string whose stripped length
is below 50 (a non-string value is not covered by the claim's wording). -/
def badTextClaimB : Json → Bool
  | .str s => decide (strippedLen s < 50)
  | _ => false

/-- The amended text-field failure condition: not a string, or a string
whose stripped length is below 50. -/
def badTextAmendedB : Json → Bool
  | .str s => decide (strippedLen s < 50)
  | _ => true

/-- A present required score value that is non-numeric in the sense of the
normalization step. -/
def scoreNonNumB : Option Json → Bool
  | some v => (toFV v).isNone
  | none => false

/-- The claim's failure disjunction, stated over the spec's conditions: no
brace span, invalid JSON even after the repair pass, a missing required
key, a non-numeric required score, or a failing text field (the text-field
condition is the parameter). -/
def parseFailsWith (bt : Json → Bool) (t : String) : Bool :=
  match extractSpan (pyStripL t.toList) with
  | none => true
  | some s =>
    match jsonLoadsR s with
    | none => true
    | some j =>
      requiredKeys.any (fun k => (getJ j k).isNone) ||
      scoreKeys.any (fun k => scoreNonNumB (getJ j k)) ||
      textKeys.any (fun k => (getJ j k).elim false bt)

/-- The failure conditions exactly as the claim words them. -/
def parseFailsClaim (t : String) : Bool := parseFailsWith badTextClaimB t

/-- The failure conditions with the amended text-field clause. -/
def parseFailsAmended (t : String) : Bool := parseFailsWith badTextAmendedB t

theorem normScoreVal_error_iff (o : Option Json) :
    (normScoreVal o).isOk = false ↔ o.bind toFV = none := by
  match o with
  | none => simp [normScoreVal, Except.isOk, Except.toBool]
  | some v =>
    simp only [normScoreVal, Option.some_bind]
    match htf : toFV v with
    | none => simp [Except.isOk, Except.toBool]
    | some f => simp [Except.isOk, Except.toBool]

theorem normScores_error_iff (ks : List String) (d : Dict) (hnd : ks.Nodup) :
    (normScores ks d).isOk = false ↔ ∃ k ∈ ks, (getD d k).bind toFV = none := by
  induction ks generalizing d with
  | nil => simp [normScores, Except.isOk, Except.toBool]
  | cons k0 ks ih =>
    unfold normScores
    match hv : normScoreVal (getD d k0) with
    | .error e =>
      simp only [Except.isOk, Except.toBool, true_iff]
      refine ⟨k0, List.mem_cons_self k0 ks, ?_⟩
      exact (normScoreVal_error_iff (getD d k0)).mp (by rw [hv]; rfl)
    | .ok f =>
      have hk0good : (getD d k0).bind toFV ≠ none := by
        intro hc
        have := (normScoreVal_error_iff (getD d k0)).mpr hc
        rw [hv] at this
        simp [Except.isOk, Except.toBool] at this
      have hknotin : k0 ∉ ks := (List.nodup_cons.mp hnd).1
      rw [ih (setD d k0 (.num f)) (List.nodup_cons.mp hnd).2]
      constructor
      · rintro ⟨k, hkmem, hkbad⟩
        refine ⟨k, List.mem_cons_of_mem k0 hkmem, ?_⟩
        rwa [getD_setD_ne d k0 k (.num f)
          (fun he => hknotin (he ▸ hkmem))] at hkbad
      · rintro ⟨k, hkmem, hkbad⟩
        rcases List.mem_cons.mp hkmem with hk0 | hkm
        · exact absurd (hk0 ▸ hkbad) hk0good
        · refine ⟨k, hkm, ?_⟩
          rwa [getD_setD_ne d k0 k (.num f) (fun he => hknotin (he ▸ hkm))]

/-- A present text value relates the text check to the amended text-failure
condition. -/
theorem textOk_eq_not_bad (d : Dict) (k : String) (v : Json)
    (hv : getD d k = some v) : textOk d k = !(badTextAmendedB v) := by
  unfold textOk badTextAmendedB
  rw [hv]
  match v with
  | .str s =>
    by_cases hl : 50 ≤ strippedLen s
    · simp [hl, Nat.not_lt.mpr hl]
    · simp [hl, Nat.lt_of_not_le hl]
  | .null | .bool _ | .num _ | .arr _ | .obj _ => rfl

/-- Failure characterization of the back end on a parsed object. -/
theorem backEndObj_error_iff (fields : Dict) :
    (backEndObj fields).isOk = false ↔
      (requiredKeys.any (fun k => (getD fields k).isNone) ||
       scoreKeys.any (fun k => scoreNonNumB (getD fields k)) ||
       textKeys.any (fun k => (getD fields k).elim false badTextAmendedB)) = true := by
  have hsub : ∀ k ∈ scoreKeys, k ∈ requiredKeys := by decide
  have htsub : ∀ k ∈ textKeys, k ∈ requiredKeys := by decide
  have hsnost : ∀ k ∈ scoreKeys, k ≠ "status" := by decide
  have htnost : ∀ k ∈ textKeys, k ≠ "status" := by decide
  have htns : ∀ k ∈ textKeys, k ∉ scoreKeys := by decide
  unfold backEndObj
  match hfm : requiredKeys.find? (fun k => (getD fields k).isNone) with
  | some k =>
    have hp := List.find?_some hfm
    have hmem := List.mem_of_find?_eq_some hfm
    simp only [Except.isOk, Except.toBool, true_iff]
    rw [Bool.or_eq_true, Bool.or_eq_true, List.any_eq_true]
    exact Or.inl (Or.inl ⟨k, hmem, hp⟩)
  | none =>
    have hall : ∀ k ∈ requiredKeys, (getD fields k).isNone = false := by
      intro k hk
      have h2 := List.find?_eq_none.mp hfm k hk
      cases hgk : getD fields k with
      | none =>
        exfalso
        apply h2
        rw [hgk]
        rfl
      | some v => rfl
    have hanyA : requiredKeys.any (fun k => (getD fields k).isNone) = false := by
      rw [List.any_eq_false]
      intro k hk
      simp [hall k hk]
    have hpresent : ∀ k, k ∈ requiredKeys → ∃ v, getD fields k = some v := by
      intro k hk
      have hisn := hall k hk
      cases hgk : getD fields k with
      | none =>
        rw [hgk] at hisn
        simp at hisn
      | some v => exact ⟨v, rfl⟩
    have hscore_pres : ∀ k ∈ scoreKeys, getD (normStatus fields) k = getD fields k :=
      fun k hk => getD_normStatus_ne fields k (hsnost k hk)
    have htext_pres : ∀ k ∈ textKeys, getD (normStatus fields) k = getD fields k :=
      fun k hk => getD_normStatus_ne fields k (htnost k hk)
    rw [hanyA, Bool.false_or]
    dsimp only
    match hns : normScores scoreKeys (normStatus fields) with
    | .error e =>
      have hB : scoreKeys.any (fun k => scoreNonNumB (getD fields k)) = true := by
        have hex := (normScores_error_iff scoreKeys (normStatus fields) (by decide)).mp
          (by rw [hns]; rfl)
        obtain ⟨k, hkmem, hkbad⟩ := hex
        rw [List.any_eq_true]
        refine ⟨k, hkmem, ?_⟩
        rw [hscore_pres k hkmem] at hkbad
        obtain ⟨v, hv⟩ := hpresent k (hsub k hkmem)
        rw [hv] at hkbad
        simp only [Option.some_bind] at hkbad
        simp [scoreNonNumB, hv, hkbad]
      simp [Except.isOk, Except.toBool, hB]
    | .ok d2 =>
      have hBfalse : scoreKeys.any (fun k => scoreNonNumB (getD fields k)) = false := by
        rw [List.any_eq_false]
        intro k hk
        simp only [Bool.not_eq_true]
        obtain ⟨v, hv⟩ := hpresent k (hsub k hk)
        cases htf : toFV v with
        | some f => simp [scoreNonNumB, hv, htf]
        | none =>
          exfalso
          have : (normScores scoreKeys (normStatus fields)).isOk = false := by
            rw [normScores_error_iff scoreKeys (normStatus fields) (by decide)]
            exact ⟨k, hk, by rw [hscore_pres k hk, hv]; simpa using htf⟩
          rw [hns] at this
          simp [Except.isOk, Except.toBool] at this
      have htext2 : ∀ k ∈ textKeys, getD d2 k = getD fields k := by
        intro k hk
        rw [normScores_ok_not_mem scoreKeys _ _ hns k (htns k hk), htext_pres k hk]
      obtain ⟨ve, hve⟩ := hpresent "scientific_explanation" (by decide)
      obtain ⟨vr, hvr⟩ := hpresent "recommendations" (by decide)
      have he2 : getD d2 "scientific_explanation" = some ve := by
        rw [htext2 "scientific_explanation" (by decide), hve]
      have hr2 : getD d2 "recommendations" = some vr := by
        rw [htext2 "recommendations" (by decide), hvr]
      have ht1 := textOk_eq_not_bad d2 "scientific_explanation" ve he2
      have ht2 := textOk_eq_not_bad d2 "recommendations" vr hr2
      have hC : textKeys.any (fun k => (getD fields k).elim false badTextAmendedB)
          = (badTextAmendedB ve || badTextAmendedB vr) := by
        simp only [textKeys, List.any_cons, List.any_nil, Bool.or_false, hve, hvr,
          Option.elim]
      dsimp only
      rw [hBfalse, Bool.false_or, hC, ht1, ht2, Bool.not_not, Bool.not_not]
      cases hbe : badTextAmendedB ve <;> cases hbr : badTextAmendedB vr <;>
        simp [Except.isOk, Except.toBool]

/-- The back end fails on a non-object exactly as the missing-keys condition
predicts (a non-object has no keys). -/
theorem backEnd_error_iff (j : Json) :
    (backEnd j).isOk = false ↔
      (requiredKeys.any (fun k => (getJ j k).isNone) ||
       scoreKeys.any (fun k => scoreNonNumB (getJ j k)) ||
       textKeys.any (fun k => (getJ j k).elim false badTextAmendedB)) = true := by
  match j with
  | .obj fields => exact backEndObj_error_iff fields
  | .null => simp [backEnd, getJ, Except.isOk, Except.toBool, requiredKeys]
  | .bool b => simp [backEnd, getJ, Except.isOk, Except.toBool, requiredKeys]
  | .num v => simp [backEnd, getJ, Except.isOk, Except.toBool, requiredKeys]
  | .str s => simp [backEnd, getJ, Except.isOk, Except.toBool, requiredKeys]
  | .arr xs => simp [backEnd, getJ, Except.isOk, Except.toBool, requiredKeys]

/-- An invalid status value makes normStatus coerce the status to
feasible. -/
theorem normStatus_coerce (fields : Dict) (v : Json)
    (hv : getD fields "status" = some v) (hbad : statusOkJ v = false) :
    normStatus fields = setD fields "status" (.str "feasible") := by
  unfold normStatus
  rw [hv]
  dsimp only
  rw [hbad]
  simp

/-- C7 (amended): the Interpreter's parse fails exactly when there is no
brace span, or the span is not valid JSON even after the repair pass, or a
required key is missing, or a required score value is non-numeric, or a
required text field is not a string or has stripped length below 50; and an
unrecognized status value never causes failure: it is coerced to
feasible. -/
theorem C7_parse_failure_characterization :
    (∀ t : String, (parse_ai_response t).isOk = false ↔ parseFailsAmended t = true) ∧
    (∀ (t : String) (fields : Dict) (d : Dict),
      loadedJson t = some (.obj fields) → parse_ai_response t = .ok d →
      ∀ v, getD fields "status" = some v → statusOkJ v = false →
        getD d "status" = some (.str "feasible")) := by
  constructor
  · intro t
    unfold parse_ai_response parseFailsAmended parseFailsWith
    cases hsp : extractSpan (pyStripL t.toList) with
    | none => simp [Except.isOk, Except.toBool]
    | some s =>
      dsimp only
      cases hld : jsonLoadsR s with
      | none => simp [Except.isOk, Except.toBool]
      | some j =>
        dsimp only
        exact backEnd_error_iff j
  · intro t fields d hload hok v hv hbad
    obtain ⟨fields2, hload2, hbe⟩ := parse_ok_structure t d hok
    rw [hload] at hload2
    simp only [Option.some.injEq, Json.obj.injEq] at hload2
    subst hload2
    have hns := backEndObj_ok_structure fields d hbe
    have hstat : getD d "status" = getD (normStatus fields) "status" :=
      normScores_ok_not_mem scoreKeys _ _ hns "status" (by decide)
    rw [hstat, normStatus_coerce fields v hv hbad, getD_setD_same]

/-- A response whose scientific_explanation is a number, not a string. -/
def badTextFieldText : String := String.join
  ["\x7b\"status\": \"feasible\", \"overall_score\": 5, ",
   "\"symmetry_score\": 5, \"proportion_score\": 5, \"skin_quality_score\": 5, ",
   "\"features_harmony_score\": 5, ",
   "\"scientific_explanation\": 5, ",
   "\"recommendations\": \"These recommendations are long enough to pass the fifty character check easily.\"\x7d"]

/-- C7, counterexample: when a required text field holds a number instead of
a string, parse fails (strip() on a non-string raises, absorbed into a
parse failure), yet none of the claim's listed conditions holds: the span
exists and parses, all eight keys are present, the scores are numeric, and
no required text field is a string of stripped length below 50.  The
claim's only-if direction is therefore wrong as stated. -/
theorem C7_parse_failure_counterexample :
    (parse_ai_response badTextFieldText).isOk = false ∧
    parseFailsClaim badTextFieldText = false := by
  exact ⟨by rfl, by rfl⟩

/-- A response with an unrecognized status value. -/
def watText : String := String.join
  ["\x7b\"status\": \"wat\", \"overall_score\": 7.5, ",
   "\"symmetry_score\": 9.0, \"proportion_score\": 9.0, \"skin_quality_score\": 9.0, ",
   "\"features_harmony_score\": 9.0, ",
   "\"scientific_explanation\": \"This explanation text is long enough to pass the fifty character check easily.\", ",
   "\"recommendations\": \"These recommendations are long enough to pass the fifty character check easily.\"\x7d"]

/-- C7 witness: the unrecognized status wat does not fail the parse and is
coerced to feasible. -/
theorem C7_parse_failure_characterization_witness :
    getD (okD (parse_ai_response watText)) "status" = some (.str "feasible") :=
  C7_parse_failure_characterization.2 watText (objFieldsOf (loadedJson watText))
    (okD (parse_ai_response watText)) (by rfl) (by rfl)
    (.str "wat") (by rfl) (by rfl)

/-! ## Image Gatekeeper and Normalizer (src/services/image_service.py) -/

/-- PIL color modes relevant to the conversion step. -/
inductive PMode where
  | rgb
  | rgba
  | la
  | other
  deriving DecidableEq

/-- Abstraction of an uploaded byte sequence as PIL sees it: either nothing
PIL can open, or an openable image with its dimensions, color mode and a
flag telling whether verify() detects corruption. -/
inductive ImgBytes where
  | undecodable
  | img (w h : ℕ) (mode : PMode) (corrupt : Bool)

/-- Embedding of validate_image (src/services/image_service.py lines
94-131): any exception (open failure, verify failure) is caught and returns
false; minimum size 200, maximum 4000, then the aspect-ratio window.  The
format check only logs.  Note the lower ratio bound in the source is the
literal 0.33, not 1/3. -/
def validate_image : ImgBytes → Bool
  | .undecodable => false
  | .img w h _ corrupt =>
    if w < 200 || h < 200 then false
    else if w > 4000 || h > 4000 then false
    else if corrupt then false
    else
      let ratio : ℚ := (w : ℚ) / (h : ℚ)
      if ratio > 3 || ratio < 33 / 100 then false
      else true

/-- The RGB conversion step of process_image (lines 42-53): RGBA and LA are
pasted onto a white RGB background; any other non-RGB mode goes through
convert; the result is RGB in every branch. -/
def convertStepMode : PMode → PMode
  | .rgb => .rgb
  | .rgba => .rgb
  | .la => .rgb
  | .other => .rgb

/-- PIL round_aspect for the dimension computed as target times aspect: pick
floor or ceil of the exact value, whichever is closer (ties to floor, the
first argument of min), with a floor of 1. -/
def roundAspectNear (v : ℚ) : ℕ :=
  let f := ⌊v⌋
  let c := ⌈v⌉
  let pick := if |v - (f : ℚ)| ≤ |v - (c : ℚ)| then f else c
  (max pick 1).toNat

/-- PIL round_aspect for the y branch, whose key compares the aspect with
x / n (and maps n = 0 to key 0, making 0 win any tie): pick floor or ceil
of v = x / aspect minimizing the key, with a floor of 1. -/
def roundAspectInv (v : ℚ) (aspect : ℚ) (x : ℕ) : ℕ :=
  let f := ⌊v⌋
  let c := ⌈v⌉
  let keyf : ℚ := if f = 0 then 0 else |aspect - (x : ℚ) / (f : ℚ)|
  let keyc : ℚ := if c = 0 then 0 else |aspect - (x : ℚ) / (c : ℚ)|
  let pick := if keyf ≤ keyc then f else c
  (max pick 1).toNat

/-- Dimensions produced by PIL Image.thumbnail with a square target: no
change when the image already fits; otherwise the aspect ratio is
preserved, the dominant dimension becomes the target and the other is
rounded by round_aspect. -/
def thumbnailDims (t : ℕ) (w h : ℕ) : ℕ × ℕ :=
  if w ≤ t && h ≤ t then (w, h)
  else
    let aspect : ℚ := (w : ℚ) / (h : ℚ)
    if 1 ≥ aspect then (roundAspectNear ((t : ℚ) * aspect), t)
    else (t, roundAspectInv ((t : ℚ) / aspect) aspect t)

/-- Embedding of _optimize_for_facial_analysis (lines 178-218) at the level
of dimensions: when the smaller dimension is below 300, both dimensions are
scaled by 300 / min and truncated by int(); the brightness and histogram
steps do not change the dimensions. -/
def faceOptDims (w h : ℕ) : ℕ × ℕ :=
  if min w h < 300 then
    (⌊(w : ℚ) * 300 / (min w h : ℚ)⌋.toNat, ⌊(h : ℚ) * 300 / (min w h : ℚ)⌋.toNat)
  else (w, h)

/-- Embedding of process_image (lines 21-92) at the level of dimensions and
color mode: decode, RGB conversion, enhancement (size-preserving),
thumbnail into the 1024 envelope, facial-analysis pass, JPEG re-encode
(size-preserving).  Opening failures and load failures on corrupt data
escape as the wrapped exception. -/
def process_image : ImgBytes → Except String (ℕ × ℕ × PMode)
  | .undecodable => .error "Error procesando imagen"
  | .img _ _ _ true => .error "Error procesando imagen"
  | .img w h m false =>
    let m1 := convertStepMode m
    let p1 := thumbnailDims 1024 w h
    let p2 := faceOptDims p1.1 p1.2
    .ok (p2.1, p2.2, m1)

/-! ## C5, C6, C10: the retry loop and the fallback result -/

/-- A successful attempt stamps its own 1-based attempt number. -/
theorem oneAttempt_ok_attempt (oracle : ℕ → Except String String) (elapsed : ℚ)
    (model : String) (i : ℕ) (d : Dict)
    (h : oneAttempt oracle elapsed model i = .ok d) :
    getD d "attempt" = some (.num (.fin ((i + 1 : ℕ) : ℚ))) := by
  unfold oneAttempt at h
  split at h
  · simp at h
  · split at h
    · simp at h
    · split at h
      · simp at h
      · simp only [Except.ok.injEq] at h
        rw [← h]
        unfold mkAttemptMeta
        rw [getD_setD_same]

/-- C5: the Invoker makes at most 3 attempts, sleeps a fixed 2 units between
consecutive attempts and none after the last failure, and a success on
0-based attempt i (after failures on every earlier attempt) returns that
attempt's result with attempt field i+1 and total sleep 2i - in particular
failures on attempts 1 and 2 followed by success on attempt 3 give
attempt = 3 and sleep 2 x 2. -/
theorem C5_retry_schedule :
    (∀ (pre : Except String Unit) (oracle : ℕ → Except String String)
        (elapsed : ℚ) (model : String),
      (analyze_facial_attractiveness pre oracle elapsed model).attemptsUsed ≤ 3) ∧
    (∀ (oracle : ℕ → Except String String) (elapsed : ℚ) (model : String)
        (i : ℕ) (d : Dict), i < 3 →
      (∀ m, m < i → (oneAttempt oracle elapsed model m).isOk = false) →
      oneAttempt oracle elapsed model i = .ok d →
      analyze_facial_attractiveness (.ok ()) oracle elapsed model = ⟨d, i + 1, 2 * i⟩ ∧
      getD d "attempt" = some (.num (.fin ((i + 1 : ℕ) : ℚ)))) := by
  constructor
  · intro pre oracle elapsed model
    cases pre with
    | error e => simp [analyze_facial_attractiveness]
    | ok u =>
      cases h0 : oneAttempt oracle elapsed model 0 with
      | ok d => simp [analyze_facial_attractiveness, loopGo, h0]
      | error e0 =>
        cases h1 : oneAttempt oracle elapsed model 1 with
        | ok d => simp [analyze_facial_attractiveness, loopGo, h0, h1]
        | error e1 =>
          cases h2 : oneAttempt oracle elapsed model 2 with
          | ok d => simp [analyze_facial_attractiveness, loopGo, h0, h1, h2]
          | error e2 => simp [analyze_facial_attractiveness, loopGo, h0, h1, h2]
  · intro oracle elapsed model i d hi hfail hok
    refine ⟨?_, oneAttempt_ok_attempt oracle elapsed model i d hok⟩
    interval_cases i
    · simp [analyze_facial_attractiveness, loopGo, hok]
    · have h0 := hfail 0 (by omega)
      cases hc0 : oneAttempt oracle elapsed model 0 with
      | ok d0 => rw [hc0] at h0; simp [Except.isOk, Except.toBool] at h0
      | error e0 => simp [analyze_facial_attractiveness, loopGo, hc0, hok]
    · have h0 := hfail 0 (by omega)
      have h1 := hfail 1 (by omega)
      cases hc0 : oneAttempt oracle elapsed model 0 with
      | ok d0 => rw [hc0] at h0; simp [Except.isOk, Except.toBool] at h0
      | error e0 =>
        cases hc1 : oneAttempt oracle elapsed model 1 with
        | ok d1 => rw [hc1] at h1; simp [Except.isOk, Except.toBool] at h1
        | error e1 => simp [analyze_facial_attractiveness, loopGo, hc0, hc1, hok]

/-- The oracle that always raises, used by the loop witnesses. -/
def failOracle : ℕ → Except String String := fun _ => .error "boom"

/-- C5 witness: failures on attempts 1 and 2, success on attempt 3 with the
concrete well-formed response: the result carries attempt = 3 and the total
sleep is 4 = 2 x 2. -/
theorem C5_retry_schedule_witness :
    analyze_facial_attractiveness (.ok ())
        (fun n => if n < 2 then .error "boom" else .ok okText) 1 "gemini" =
      ⟨okD (oneAttempt (fun n => if n < 2 then .error "boom" else .ok okText) 1 "gemini" 2),
        3, 4⟩ ∧
    getD (okD (oneAttempt (fun n => if n < 2 then .error "boom" else .ok okText) 1 "gemini" 2))
      "attempt" = some (.num (.fin ((3 : ℕ) : ℚ))) := by
  have h := C5_retry_schedule.2 (fun n => if n < 2 then .error "boom" else .ok okText)
    1 "gemini" 2
    (okD (oneAttempt (fun n => if n < 2 then .error "boom" else .ok okText) 1 "gemini" 2))
    (by omega) (by intro m hm; interval_cases m <;> rfl) (by rfl)
  exact ⟨h.1, h.2⟩

/-- C6: when all three attempts fail (and likewise when the preparation
steps before the loop fail), analyze_facial_attractiveness does not raise:
it returns the default Scorecard - status improvable, all five required
scores 5.0, the fixed explanation embedding the failure reason, the fixed
generic recommendations and the error marker flag. -/
theorem C6_fallback_on_exhaustion (oracle : ℕ → Except String String)
    (elapsed : ℚ) (model : String) (e0 e1 e2 : String)
    (h0 : oneAttempt oracle elapsed model 0 = .error e0)
    (h1 : oneAttempt oracle elapsed model 1 = .error e1)
    (h2 : oneAttempt oracle elapsed model 2 = .error e2) :
    analyze_facial_attractiveness (.ok ()) oracle elapsed model =
      ⟨get_default_analysis_result e2 model, 3, 4⟩ ∧
    (∀ e, analyze_facial_attractiveness (.error e) oracle elapsed model =
      ⟨get_default_analysis_result e model, 0, 0⟩) ∧
    getD (get_default_analysis_result e2 model) "status" = some (.str "improvable") ∧
    (∀ k ∈ scoreKeys, getD (get_default_analysis_result e2 model) k = some (.num (.fin 5))) ∧
    getD (get_default_analysis_result e2 model) "scientific_explanation"
      = some (.str (defaultExplanation e2)) ∧
    (∃ a b, defaultExplanation e2 = a ++ e2 ++ b) ∧
    getD (get_default_analysis_result e2 model) "recommendations"
      = some (.str defaultRecommendations) ∧
    getD (get_default_analysis_result e2 model) "error" = some (.bool true) := by
  refine ⟨by simp [analyze_facial_attractiveness, loopGo, h0, h1, h2], ?_, by rfl, ?_, by rfl,
    ?_, by rfl, by rfl⟩
  · intro e
    simp [analyze_facial_attractiveness]
  · intro k hk
    simp only [scoreKeys, List.mem_cons, List.not_mem_nil, or_false] at hk
    rcases hk with rfl | rfl | rfl | rfl | rfl <;> rfl
  · exact ⟨"❌ Error técnico en el análisis: ", _, rfl⟩

/-- C6 witness: the fallback applied with the concrete always-failing
oracle. -/
theorem C6_fallback_on_exhaustion_witness :
    analyze_facial_attractiveness (.ok ()) failOracle 1 "gemini" =
      ⟨get_default_analysis_result "boom" "gemini", 3, 4⟩ :=
  (C6_fallback_on_exhaustion failOracle 1 "gemini" "boom" "boom" "boom"
    rfl rfl rfl).1

/-- C10: the fallback Scorecard always reports attempt = 1 and
processing_time = 0.1 even after all 3 attempts were exhausted, so on the
fallback path the attempt field does not reflect the true attempt count. -/
theorem C10_fallback_attempt_metadata (oracle : ℕ → Except String String)
    (elapsed : ℚ) (model : String) (e0 e1 e2 : String)
    (h0 : oneAttempt oracle elapsed model 0 = .error e0)
    (h1 : oneAttempt oracle elapsed model 1 = .error e1)
    (h2 : oneAttempt oracle elapsed model 2 = .error e2) :
    getD (analyze_facial_attractiveness (.ok ()) oracle elapsed model).result "attempt"
      = some (.num (.fin 1)) ∧
    getD (analyze_facial_attractiveness (.ok ()) oracle elapsed model).result "processing_time"
      = some (.num (.fin (1 / 10))) ∧
    (analyze_facial_attractiveness (.ok ()) oracle elapsed model).attemptsUsed = 3 ∧
    (∀ e0' : String, getD (analyze_facial_attractiveness (.error e0') oracle elapsed model).result
      "attempt" = some (.num (.fin 1))) := by
  have hrun : analyze_facial_attractiveness (.ok ()) oracle elapsed model =
      ⟨get_default_analysis_result e2 model, 3, 4⟩ := by
    simp [analyze_facial_attractiveness, loopGo, h0, h1, h2]
  refine ⟨by rw [hrun]; rfl, by rw [hrun]; rfl, by rw [hrun], ?_⟩
  intro e
  rfl

/-- C10 witness: the metadata mismatch on the concrete always-failing
oracle. -/
theorem C10_fallback_attempt_metadata_witness :
    getD (analyze_facial_attractiveness (.ok ()) failOracle 1 "gemini").result "attempt"
      = some (.num (.fin 1)) ∧
    (analyze_facial_attractiveness (.ok ()) failOracle 1 "gemini").attemptsUsed = 3 := by
  have h := C10_fallback_attempt_metadata failOracle 1 "gemini" "boom" "boom" "boom"
    rfl rfl rfl
  exact ⟨h.1, h.2.2.1⟩

/-! ## C4: Normalizer output bounds -/

/-- Acceptance conditions of validate_image on an openable image. -/
theorem validate_image_true_iff (w h : ℕ) (m : PMode) (c : Bool) :
    validate_image (.img w h m c) = true ↔
      (200 ≤ w ∧ 200 ≤ h ∧ w ≤ 4000 ∧ h ≤ 4000 ∧ c = false ∧
       33 / 100 ≤ (w : ℚ) / h ∧ (w : ℚ) / h ≤ 3) := by
  unfold validate_image
  dsimp only
  split_ifs with h1 h2 h3 h4
  · simp only [Bool.false_eq_true, false_iff]
    simp at h1
    push_neg
    intro ha hb
    omega
  · simp only [Bool.false_eq_true, false_iff]
    simp at h2
    push_neg
    intro _ _ hc hd
    omega
  · simp only [Bool.false_eq_true, false_iff]
    push_neg
    intro _ _ _ _ hc
    rw [hc] at h3
    exact absurd h3 (by simp)
  · simp only [Bool.false_eq_true, false_iff]
    simp only [decide_eq_true_eq, Bool.or_eq_true] at h4
    push_neg
    intro _ _ _ _ _ hlo
    rcases h4 with hgt | hlt
    · exact hgt
    · linarith
  · simp only [true_iff]
    simp only [decide_eq_true_eq, Bool.or_eq_true, not_or, not_lt] at h1 h2 h4
    exact ⟨h1.1, h1.2, h2.1, h2.2, Bool.not_eq_true c |>.mp h3, h4.2, h4.1⟩


/-- Both round_aspect variants return one of floor or ceiling of the exact
value (raised to at least 1), so any enclosing natural bounds transfer. -/
theorem roundAspectNear_bounds (v : ℚ) (n m : ℕ) (hn : (n : ℚ) ≤ v)
    (hm : v ≤ (m : ℚ)) (hn1 : 1 ≤ n) :
    n ≤ roundAspectNear v ∧ roundAspectNear v ≤ m := by
  unfold roundAspectNear
  dsimp only
  have hfl : (n : ℤ) ≤ ⌊v⌋ := Int.le_floor.mpr (by exact_mod_cast hn)
  have hcl : ⌈v⌉ ≤ (m : ℤ) := Int.ceil_le.mpr (by exact_mod_cast hm)
  have hfc : ⌊v⌋ ≤ ⌈v⌉ := Int.floor_le_ceil v
  split
  · constructor
    · omega
    · omega
  · constructor
    · omega
    · omega

theorem roundAspectInv_bounds (v a : ℚ) (x n m : ℕ) (hn : (n : ℚ) ≤ v)
    (hm : v ≤ (m : ℚ)) (hn1 : 1 ≤ n) :
    n ≤ roundAspectInv v a x ∧ roundAspectInv v a x ≤ m := by
  unfold roundAspectInv
  dsimp only
  have hfl : (n : ℤ) ≤ ⌊v⌋ := Int.le_floor.mpr (by exact_mod_cast hn)
  have hcl : ⌈v⌉ ≤ (m : ℤ) := Int.ceil_le.mpr (by exact_mod_cast hm)
  have hfc : ⌊v⌋ ≤ ⌈v⌉ := Int.floor_le_ceil v
  split
  · constructor
    · omega
    · omega
  · constructor
    · omega
    · omega

/-- Thumbnail keeps both dimensions within the 1024 envelope, and either
leaves the image untouched (when it already fits) or produces one with
smaller dimension at least 300 (thanks to the Gatekeeper's ratio window). -/
theorem thumbnailDims_bounds (w h : ℕ) (hw : 200 ≤ w) (hh : 200 ≤ h)
    (hr1 : 33 / 100 ≤ (w : ℚ) / h) (hr2 : (w : ℚ) / h ≤ 3) :
    (thumbnailDims 1024 w h).1 ≤ 1024 ∧ (thumbnailDims 1024 w h).2 ≤ 1024 ∧
    (300 ≤ min (thumbnailDims 1024 w h).1 (thumbnailDims 1024 w h).2 ∨
      thumbnailDims 1024 w h = (w, h)) := by
  have hwq : (0 : ℚ) < w := by exact_mod_cast (by omega : 0 < w)
  have hhq : (0 : ℚ) < h := by exact_mod_cast (by omega : 0 < h)
  by_cases hfit : ((w ≤ 1024 : Bool) && (h ≤ 1024 : Bool)) = true
  · have heq : thumbnailDims 1024 w h = (w, h) := by
      unfold thumbnailDims
      rw [if_pos hfit]
    rw [heq]
    simp only [Bool.and_eq_true, decide_eq_true_eq] at hfit
    exact ⟨hfit.1, hfit.2, Or.inr rfl⟩
  · by_cases hasp : (1 : ℚ) ≥ (w : ℚ) / h
    · have heq : thumbnailDims 1024 w h =
          (roundAspectNear ((1024 : ℚ) * ((w : ℚ) / h)), 1024) := by
        unfold thumbnailDims
        rw [if_neg hfit]
        dsimp only
        rw [if_pos hasp]
        norm_num
      have hv1 : ((300 : ℕ) : ℚ) ≤ 1024 * ((w : ℚ) / h) := by
        push_cast
        nlinarith
      have hv2 : (1024 : ℚ) * ((w : ℚ) / h) ≤ ((1024 : ℕ) : ℚ) := by
        push_cast
        nlinarith
      obtain ⟨hlo, hhi⟩ := roundAspectNear_bounds ((1024 : ℚ) * ((w : ℚ) / h))
        300 1024 hv1 hv2 (by omega)
      rw [heq]
      exact ⟨hhi, le_refl _, Or.inl (le_min hlo (by norm_num))⟩
    · have heq : thumbnailDims 1024 w h =
          (1024, roundAspectInv ((1024 : ℚ) / ((w : ℚ) / h)) ((w : ℚ) / h) 1024) := by
        unfold thumbnailDims
        rw [if_neg hfit]
        dsimp only
        rw [if_neg hasp]
        norm_num
      push_neg at hasp
      have haspq : (0 : ℚ) < (w : ℚ) / h := by positivity
      have hv1 : ((300 : ℕ) : ℚ) ≤ 1024 / ((w : ℚ) / h) := by
        push_cast
        rw [le_div_iff₀ haspq]
        nlinarith
      have hv2 : (1024 : ℚ) / ((w : ℚ) / h) ≤ ((1024 : ℕ) : ℚ) := by
        push_cast
        rw [div_le_iff₀ haspq]
        nlinarith
      obtain ⟨hlo, hhi⟩ := roundAspectInv_bounds ((1024 : ℚ) / ((w : ℚ) / h))
        ((w : ℚ) / h) 1024 300 1024 hv1 hv2 (by omega)
      rw [heq]
      exact ⟨le_refl _, hhi, Or.inl (le_min (by norm_num) hlo)⟩

/-- The facial-analysis upscale keeps both dimensions within the envelope:
when it fires, the smaller dimension was below 300 and the Gatekeeper's
ratio window bounds the larger one by 100/33 times the smaller, so the
scaled dimensions stay below 1024. -/
theorem faceOptDims_bounds (w h : ℕ) (hw1 : w ≤ 1024) (hh1 : h ≤ 1024)
    (hmax : (w : ℚ) ≤ 100 / 33 * min (w : ℚ) (h : ℚ) ∧
      (h : ℚ) ≤ 100 / 33 * min (w : ℚ) (h : ℚ))
    (hmin : 1 ≤ min w h) :
    (faceOptDims w h).1 ≤ 1024 ∧ (faceOptDims w h).2 ≤ 1024 := by
  unfold faceOptDims
  by_cases hsm : min w h < 300
  · rw [if_pos hsm]
    have hminq : (0 : ℚ) < min (w : ℚ) (h : ℚ) := by
      have : (0 : ℕ) < min w h := hmin
      exact_mod_cast this
    have key : ∀ x : ℕ, (x : ℚ) ≤ 100 / 33 * min (w : ℚ) (h : ℚ) →
        (⌊(x : ℚ) * 300 / (min w h : ℚ)⌋).toNat ≤ 1024 := by
      intro x hx
      rw [Int.toNat_le, Int.floor_le_iff]
      have hv : (x : ℚ) * 300 / min (w : ℚ) (h : ℚ) ≤ 10000 / 11 := by
        rw [div_le_iff₀ hminq]
        linarith
      push_cast
      linarith
    exact ⟨key w hmax.1, key h hmax.2⟩
  · rw [if_neg hsm]
    exact ⟨hw1, hh1⟩

/-- The Gatekeeper's ratio window bounds each dimension by 100/33 times the
smaller one. -/
theorem ratio_window_bound (w h : ℕ) (hw : 0 < w) (hh : 0 < h)
    (hr1 : 33 / 100 ≤ (w : ℚ) / h) (hr2 : (w : ℚ) / h ≤ 3) :
    (w : ℚ) ≤ 100 / 33 * min (w : ℚ) (h : ℚ) ∧
      (h : ℚ) ≤ 100 / 33 * min (w : ℚ) (h : ℚ) := by
  have hwq : (0 : ℚ) < w := by exact_mod_cast hw
  have hhq : (0 : ℚ) < h := by exact_mod_cast hh
  rcases le_total (w : ℚ) (h : ℚ) with hwh | hwh
  · rw [min_eq_left hwh]
    have hhw : (33 : ℚ) / 100 * h ≤ w := by
      have := (le_div_iff₀ hhq).mp hr1
      linarith
    constructor
    · linarith
    · linarith
  · rw [min_eq_right hwh]
    have hwb : (w : ℚ) ≤ 3 * h := by
      have := (div_le_iff₀ hhq).mp hr2
      linarith
    constructor
    · linarith
    · linarith

/-- C4: for every input the Gatekeeper accepts, the Normalizer's output is
RGB with both dimensions at most 1024, including after the facial-analysis
upscale that raises the smaller dimension to 300. -/
theorem C4_normalizer_bounds (b : ImgBytes) (hv : validate_image b = true) :
    ∃ w2 h2, process_image b = .ok (w2, h2, .rgb) ∧ w2 ≤ 1024 ∧ h2 ≤ 1024 := by
  cases b with
  | undecodable => simp [validate_image] at hv
  | img w h m c =>
    rw [validate_image_true_iff] at hv
    obtain ⟨k1, k2, k3, k4, k5, k6, k7⟩ := hv
    subst k5
    have hmode : convertStepMode m = PMode.rgb := by cases m <;> rfl
    obtain ⟨t1, t2, t3⟩ := thumbnailDims_bounds w h k1 k2 k6 k7
    refine ⟨(faceOptDims (thumbnailDims 1024 w h).1 (thumbnailDims 1024 w h).2).1,
      (faceOptDims (thumbnailDims 1024 w h).1 (thumbnailDims 1024 w h).2).2, ?_, ?_, ?_⟩
    · show Except.ok (_, _, convertStepMode m) = _
      rw [hmode]
    · rcases t3 with h300 | horig
      · unfold faceOptDims
        rw [if_neg (not_lt.mpr h300)]
        exact t1
      · rw [horig]
        rw [horig] at t1 t2
        exact (faceOptDims_bounds w h t1 t2
          (ratio_window_bound w h (by omega) (by omega) k6 k7) (by omega)).1
    · rcases t3 with h300 | horig
      · unfold faceOptDims
        rw [if_neg (not_lt.mpr h300)]
        exact t2
      · rw [horig]
        rw [horig] at t1 t2
        exact (faceOptDims_bounds w h t1 t2
          (ratio_window_bound w h (by omega) (by omega) k6 k7) (by omega)).2

/-- C4 witness: a 400 by 400 RGBA upload (accepted by the Gatekeeper) is
normalized to an RGB image within the 1024 envelope. -/
theorem C4_normalizer_bounds_witness :
    ∃ w2 h2, process_image (.img 400 400 .rgba false) = .ok (w2, h2, .rgb) ∧
      w2 ≤ 1024 ∧ h2 ≤ 1024 :=
  C4_normalizer_bounds (.img 400 400 .rgba false) (by rfl)

/-! ## C3: the Gatekeeper characterization -/

/-- C3, counterexample: a 332 by 1000 image has aspect ratio 0.332, strictly
below one third, yet the Gatekeeper accepts it: the lower bound in the code
is the literal 0.33, not 1/3, so the claimed characterization is wrong on
the band [0.33, 1/3). -/
theorem C3_gatekeeper_counterexample :
    validate_image (.img 332 1000 .rgb false) = true ∧
    (332 : ℚ) / 1000 < 1 / 3 := by
  constructor
  · rfl
  · norm_num

/-- C3, amended: validate_image returns a boolean and never raises (it is a
total function); it returns false exactly when the bytes are undecodable or
corrupt, or the smallest dimension is below 200, or the largest dimension
exceeds 4000, or the aspect ratio is outside [0.33, 3] (the code's literal
lower bound 0.33, not 1/3); at ratio exactly 3.0 or exactly 0.33 the image
is accepted. -/
theorem C3_gatekeeper_characterization (b : ImgBytes) :
    validate_image b = false ↔
      (b = .undecodable ∨ ∃ w h m c, b = .img w h m c ∧
        (c = true ∨ min w h < 200 ∨ 4000 < max w h ∨
         (w : ℚ) / h < 33 / 100 ∨ 3 < (w : ℚ) / h)) := by
  cases b with
  | undecodable => simp [validate_image]
  | img w h m c =>
    have hb : (validate_image (.img w h m c) = false) ↔
        ¬ (validate_image (.img w h m c) = true) := by
      cases hv : validate_image (.img w h m c) <;> simp
    rw [hb, validate_image_true_iff]
    constructor
    · intro hn
      refine Or.inr ⟨w, h, m, c, rfl, ?_⟩
      by_contra hc
      push_neg at hc
      obtain ⟨hc1, hc2, hc3, hc4, hc5⟩ := hc
      exact hn ⟨by omega, by omega, by omega, by omega,
        Bool.not_eq_true c |>.mp hc1, hc4, hc5⟩
    · rintro (habs | ⟨w', h', m', c', heq, hcond⟩)
      · exact absurd habs (by simp)
      · simp only [ImgBytes.img.injEq] at heq
        obtain ⟨hw, hh, hm, hc⟩ := heq
        subst hw; subst hh; subst hc
        rintro ⟨k1, k2, k3, k4, k5, k6, k7⟩
        rcases hcond with h5 | h5 | h5 | h5 | h5
        · rw [k5] at h5; exact absurd h5 (by simp)
        · omega
        · omega
        · linarith
        · linarith

end HowAreU
